import Mathlib

/-!
Verification development for the WhatsApp-to-Slack relay (`src/server.js`).

The Redis key space is embedded as a record of association lists, one per key
prefix (`session:`, `thread:`, `contact:`, the `roles` set, `assign:`).  Each
server-side helper (`saveSession`, `getSession`, `getSessionByThread`,
`deleteSession`, `scheduleAutoResponses`, `cancelAutoResponses`,
`sendBusyMessage`, `getAllContacts`, and the relevant request handlers) is
translated to a pure state-passing function over that store.  The in-process
`setTimeout` handles of the auto-response subsystem are embedded as explicit
timer records with fresh numeric ids; firing, cancelling and overwriting are
modelled as steps of a small transition system, with outbound messages
accumulated in an event log.
-/

namespace W2S

/-! ## Association-list model of the Redis key space -/

section AList

variable {κ α : Type} [DecidableEq κ]

/-- `redis.get`: first binding of key `k`, if any. -/
def aget (m : List (κ × α)) (k : κ) : Option α :=
  (m.find? (fun p => decide (p.1 = k))).map (·.2)

/-- `redis.set`: bind `k` to `v`, replacing any previous binding. -/
def aset (m : List (κ × α)) (k : κ) (v : α) : List (κ × α) :=
  (k, v) :: m.filter (fun p => decide (p.1 ≠ k))

/-- `redis.del`: drop every binding of `k`. -/
def adel (m : List (κ × α)) (k : κ) : List (κ × α) :=
  m.filter (fun p => decide (p.1 ≠ k))

end AList

/-- `redis.sAdd` on a set value (membership semantics; order immaterial). -/
def sAdd (s : List String) (x : String) : List String :=
  if x ∈ s then s else s ++ [x]

/-- `redis.sRem` on a set value. -/
def sRem (s : List String) (x : String) : List String :=
  s.filter (fun y => decide (y ≠ x))

/-! ## Data model -/

/-- A session record as serialized under `session:{sessionId}` by `saveSession`. -/
structure Session where
  session_id : String
  thread_ts : String
  profile_name : String
  created_at : String
deriving DecidableEq, Repr

/-- A contact record as serialized under `contact:{phone}`.  The `roles` field
is `Option`-valued because the save-contact modal handler writes records
without a `roles` field; `getAllContacts` defaults a missing field to `[]`. -/
structure Contact where
  name : String
  phone : String
  roles : Option (List String)
  saved_at : String
deriving DecidableEq, Repr

/-- The shared Redis store, split by key prefix. -/
structure Store where
  sessions : List (String × Session)
  threads : List (String × String)
  contacts : List (String × Contact)
  roles : List String
  assigns : List ((String × String) × List String)
deriving DecidableEq, Repr

def emptyStore : Store := ⟨[], [], [], [], []⟩

/-! ## Session registry (`saveSession` / `getSession` / `getSessionByThread`) -/

/-- `saveSession(sessionId, threadTs, profileName)`: writes the forward record
under `session:{sessionId}` and the reverse pointer under `thread:{threadTs}`.
`profileName || 'Customer'` is modelled by the empty-string fallback. -/
def saveSession (st : Store) (sessionId threadTs profileName now : String) : Store :=
  let sess : Session :=
    { session_id := sessionId
      thread_ts := threadTs
      profile_name := if profileName = "" then "Customer" else profileName
      created_at := now }
  { st with
      sessions := aset st.sessions sessionId sess
      threads := aset st.threads threadTs sessionId }

/-- `getSession(sessionId)`: forward lookup. -/
def getSession (st : Store) (sessionId : String) : Option Session :=
  aget st.sessions sessionId

/-- `getSessionByThread(threadTs)`: reverse lookup through `thread:{threadTs}`;
a missing or falsy (empty) stored id yields `null`. -/
def getSessionByThread (st : Store) (threadTs : String) : Option Session :=
  match aget st.threads threadTs with
  | none => none
  | some sessionId => if sessionId = "" then none else getSession st sessionId

/-- The forward/reverse agreement invariant of the session registry: every
forward record is pointed back at by the reverse entry for its thread, and
every reverse entry points at a forward record carrying that very thread. -/
def indicesAgree (st : Store) : Prop :=
  (∀ p ∈ st.sessions, aget st.threads p.2.thread_ts = some p.1) ∧
  (∀ q ∈ st.threads, (aget st.sessions q.2).map Session.thread_ts = some q.1)

instance (st : Store) : Decidable (indicesAgree st) := by
  unfold indicesAgree; infer_instance

/-! ## Auto-response timers -/

def busyMessage3Min : String :=
  "Thank you for your patience. Our team is currently busy and will be with you shortly."

def busyMessage10Min : String :=
  "We apologize for the delay. Our team is experiencing high volume. Someone will be with you as soon as possible."

/-- One `setTimeout` handle: a fresh numeric id, the session it was scheduled
for, and the busy text its callback will send. -/
structure TimerRec where
  tid : Nat
  sessionId : String
  message : String
deriving DecidableEq, Repr

/-- The in-process timer state: a fresh-id counter, the timers that are
scheduled and neither cleared nor fired, and the `pendingTimers` map. -/
structure TimerSys where
  nextId : Nat
  active : List TimerRec
  pending : List (String × (Nat × Nat))
deriving DecidableEq, Repr

def emptyTimers : TimerSys := ⟨0, [], []⟩

/-- `scheduleAutoResponses(sessionId)`: creates the 3-minute and 10-minute
timers and stores the pair in `pendingTimers`, overwriting any existing entry
(`pendingTimers.set`). -/
def scheduleAutoResponses (ts : TimerSys) (sessionId : String) : TimerSys :=
  let threeMin : TimerRec := ⟨ts.nextId, sessionId, busyMessage3Min⟩
  let tenMin : TimerRec := ⟨ts.nextId + 1, sessionId, busyMessage10Min⟩
  { nextId := ts.nextId + 2
    active := threeMin :: tenMin :: ts.active
    pending := aset ts.pending sessionId (threeMin.tid, tenMin.tid) }

/-- `cancelAutoResponses(sessionId)`: if `pendingTimers` holds a pair for the
session, `clearTimeout` both and delete the entry; otherwise a no-op. -/
def cancelAutoResponses (ts : TimerSys) (sessionId : String) : TimerSys :=
  match aget ts.pending sessionId with
  | none => ts
  | some ids =>
      { ts with
          active := ts.active.filter (fun t => decide (t.tid ≠ ids.1) && decide (t.tid ≠ ids.2))
          pending := adel ts.pending sessionId }

/-- A timer can still fire iff it is scheduled and neither cleared nor fired. -/
def canFire (ts : TimerSys) (tid : Nat) : Prop :=
  ∃ t ∈ ts.active, t.tid = tid

instance (ts : TimerSys) (tid : Nat) : Decidable (canFire ts tid) := by
  unfold canFire; infer_instance

/-! ## Worlds: store, timers and the outbound busy-message log -/

/-- One successful `sendBusyMessage` occurrence: the outbound text to the
customer identified by the stored `session_id`, mirrored as a notice into the
stored `thread_ts`. -/
structure BusyEvent where
  session_id : String
  thread_ts : String
  message : String
deriving DecidableEq, Repr

structure World where
  store : Store
  timers : TimerSys
  sent : List BusyEvent
deriving DecidableEq, Repr

/-- `sendBusyMessage(sessionId, message)`: loads the session; if absent, a
no-op; else sends the busy text to the customer and a mirrored notice into the
thread (logged as one `BusyEvent`). -/
def sendBusyMessage (w : World) (sessionId message : String) : World :=
  match getSession w.store sessionId with
  | none => w
  | some sess => { w with sent := w.sent ++ [⟨sess.session_id, sess.thread_ts, message⟩] }

/-- A `setTimeout` callback becoming due: if the timer is still active it is
spent (one-shot) and its `sendBusyMessage` call runs; otherwise nothing. -/
def fireTimer (w : World) (tid : Nat) : World :=
  match w.timers.active.find? (fun t => decide (t.tid = tid)) with
  | none => w
  | some t =>
      let w1 : World :=
        { w with timers := { w.timers with active := w.timers.active.filter (fun u => decide (u.tid ≠ tid)) } }
      sendBusyMessage w1 t.sessionId t.message

/-- `deleteSession(sessionId, threadTs)`: cancels the auto-response timers and
deletes both index entries. -/
def deleteSession (w : World) (sessionId threadTs : String) : World :=
  { w with
      timers := cancelAutoResponses w.timers sessionId
      store := { w.store with
                   sessions := adel w.store.sessions sessionId
                   threads := adel w.store.threads threadTs } }

/-- The session-registry and timer operations the server can interleave. -/
inductive Step where
  | save (sessionId threadTs profileName now : String)
  | close (sessionId threadTs : String)
  | schedule (sessionId : String)
  | cancel (sessionId : String)
  | fire (tid : Nat)
deriving DecidableEq, Repr

def applyStep (w : World) : Step → World
  | .save sid tts nm now => { w with store := saveSession w.store sid tts nm now }
  | .close sid tts => deleteSession w sid tts
  | .schedule sid => { w with timers := scheduleAutoResponses w.timers sid }
  | .cancel sid => { w with timers := cancelAutoResponses w.timers sid }
  | .fire tid => fireTimer w tid

def runSteps (w : World) (tr : List Step) : World :=
  tr.foldl applyStep w

/-- The busy notifications already sent for a given session. -/
def busyFor (w : World) (sessionId : String) : List BusyEvent :=
  w.sent.filter (fun e => decide (e.session_id = sessionId))

/-- Every stored session record carries its own key as `session_id` (true of
every record `saveSession` writes). -/
def SessWF (st : Store) : Prop :=
  ∀ p ∈ st.sessions, p.2.session_id = p.1

instance (st : Store) : Decidable (SessWF st) := by
  unfold SessWF; infer_instance

/-- No still-active timer belongs to the given session. -/
def NoActiveFor (ts : TimerSys) (sessionId : String) : Prop :=
  ∀ t ∈ ts.active, t.sessionId ≠ sessionId

instance (ts : TimerSys) (sessionId : String) : Decidable (NoActiveFor ts sessionId) := by
  unfold NoActiveFor; infer_instance

/-! ## Contact directory -/

/-- The roles of a parsed contact record, with the handler-side default
`if (!contact.roles) contact.roles = []`. -/
def rolesOrEmpty (c : Contact) : List String :=
  c.roles.getD []

/-- A contact as returned by `getAllContacts`: the stored record with the
`roles` default applied. -/
def withRoles (c : Contact) : Contact :=
  { c with roles := some (rolesOrEmpty c) }

/-- Name order used by `getAllContacts`' sort.  `localeCompare` is
locale-dependent; ordinary string order stands in for it (the properties
proved below are order-independent memberships). -/
def nameLe (a b : Contact) : Prop :=
  a.name ≤ b.name

instance : DecidableRel nameLe :=
  fun a b => inferInstanceAs (Decidable (a.name ≤ b.name))

/-- `getAllContacts()`: every `contact:*` record, `roles` defaulted, sorted by
name. -/
def getAllContacts (st : Store) : List Contact :=
  List.insertionSort nameLe (st.contacts.map (fun p => withRoles p.2))

/-- Every stored contact record sits under the key `contact:{its own phone}`
(true of every record the handlers write). -/
def ContactsWF (st : Store) : Prop :=
  ∀ p ∈ st.contacts, p.2.phone = p.1

instance (st : Store) : Decidable (ContactsWF st) := by
  unfold ContactsWF; infer_instance

/-- The record written back by the remove-role cascade: the listed contact
with the role filtered out of its (defaulted) roles. -/
def stripRole (r : String) (c : Contact) : Contact :=
  { c with roles := some ((rolesOrEmpty c).filter (fun x => decide (x ≠ r))) }

/-- One iteration of the remove-role cascade loop over `getAllContacts()`. -/
def removeRoleStep (r : String) (acc : Store) (c : Contact) : Store :=
  if r ∈ rolesOrEmpty c then
    { acc with contacts := aset acc.contacts c.phone (stripRole r c) }
  else acc

/-- The `remove_role` block action: `sRem('roles', r)` followed by the cascade
that strips `r` from every contact that has it. -/
def removeRoleAction (st : Store) (r : String) : Store :=
  let st1 : Store := { st with roles := sRem st.roles r }
  (getAllContacts st1).foldl (removeRoleStep r) st1

/-- The `save_contact_modal` view submission (its store effect): writes
`{name, phone, saved_at}` under `contact:{phone}` — note the written record
has no `roles` field. -/
def saveContactModalSubmit (st : Store) (phone name now : String) : Store :=
  { st with contacts := aset st.contacts phone ⟨name, phone, none, now⟩ }

/-! ## `/contact/check` -/

structure CheckResp where
  is_saved : Bool
  name : Option String
deriving DecidableEq, Repr

/-- `GET /contact/check`.  `fetch` stands for `redis.get('contact:'+phone)`
followed by `JSON.parse`; an `Except.error` result models any throw inside the
`try` block, which the handler's `catch` converts to `{is_saved: false}`.
A missing or empty `phone` query parameter is falsy and short-circuits. -/
def contactCheck (fetch : String → Except String (Option Contact)) (phoneQ : Option String) :
    Nat × CheckResp :=
  match phoneQ with
  | none => (200, ⟨false, none⟩)
  | some phone =>
      if phone = "" then (200, ⟨false, none⟩)
      else
        match fetch phone with
        | .error _ => (200, ⟨false, none⟩)
        | .ok none => (200, ⟨false, none⟩)
        | .ok (some c) => (200, ⟨true, some c.name⟩)

/-! ## `/inbound` -/

inductive InboundBody where
  | text (t : String)
  | image (url : String) (caption : Option String) (nm : Option String)
  | video (url : String) (caption : Option String)
  | audio (url : String)
deriving DecidableEq, Repr

structure SlackPost where
  channel : String
  thread_ts : Option String
  username : Option String
  text : String
deriving DecidableEq, Repr

structure HandlerResp where
  code : Nat
  status : String
  message : Option String
deriving DecidableEq, Repr

def sessionNotFound : String := "Session not found"

/-- The Slack text built for an inbound customer message (emoji presentation
prefixes of the source templates omitted). -/
def inboundText (body : InboundBody) : String :=
  match body with
  | .text t => t
  | .image _ caption _ => "Customer sent an image:" ++ (caption.getD "")
  | .video url caption => "Customer sent a video:" ++ (caption.getD "") ++ url
  | .audio url => "Customer sent an audio message:" ++ url

/-- `POST /inbound`: resolves the session; if absent, answers HTTP 200 with a
warning body, posts nothing and leaves the store untouched; else posts the
message into the session's thread. -/
def inboundHandler (st : Store) (channelId sessionId : String) (body : InboundBody) :
    HandlerResp × List SlackPost × Store :=
  match getSession st sessionId with
  | none => (⟨200, "warning", some sessionNotFound⟩, [], st)
  | some session =>
      let customerName := if session.profile_name = "" then "Customer" else session.profile_name
      let post : SlackPost := ⟨channelId, some session.thread_ts, some customerName, inboundText body⟩
      (⟨200, "success", none⟩, [post], st)

/-! ## `/slack/assign` -/

/-- `listResponders`: the members of `assign:{school}:{intent}` (empty when
the key is absent). -/
def listResponders (st : Store) (school intent : String) : List String :=
  (aget st.assigns (school, intent)).getD []

/-- The `sAdd` loop of the assign command: adds every mentioned user to the
assignment set. -/
def assignAddUsers (st : Store) (school intent : String) (userIds : List String) : Store :=
  userIds.foldl
    (fun acc uid =>
      { acc with assigns := aset acc.assigns (school, intent) (sAdd (listResponders acc school intent) uid) })
    st

/-- The `sRem` loop of `assign clear ... @user`: removes every mentioned user
from the assignment set (no-op on a missing key, as in Redis). -/
def assignRemoveUsers (st : Store) (school intent : String) (userIds : List String) : Store :=
  userIds.foldl
    (fun acc uid =>
      match aget acc.assigns (school, intent) with
      | none => acc
      | some s => { acc with assigns := aset acc.assigns (school, intent) (sRem s uid) })
    st

/-! ## Concrete stores used by witnesses and counterexamples -/

def stA : Store := saveSession emptyStore "s1" "t1" "Alice" "d1"

def stB : Store := saveSession stA "s1" "t2" "Alice" "d2"

def contactVip : Contact := ⟨"Old Name", "15551234567", some ["vip"], "d0"⟩

def stContact : Store := { emptyStore with contacts := [("15551234567", contactVip)] }

def contactsDemo : Store :=
  { emptyStore with
      roles := ["vip", "member"]
      contacts :=
        [("111", ⟨"Ann", "111", some ["vip", "member"], "d"⟩),
         ("222", ⟨"Bob", "222", none, "d"⟩),
         ("333", ⟨"Cid", "333", some ["vip"], "d"⟩)] }

def ts2abc : TimerSys := scheduleAutoResponses (scheduleAutoResponses emptyTimers "abc") "abc"

def world0 : World := ⟨emptyStore, emptyTimers, []⟩

def trDemo : List Step :=
  [Step.fire 0, Step.fire 1, Step.schedule "xyz", Step.fire 2, Step.fire 3, Step.cancel "xyz"]

def demoFetch : String → Except String (Option Contact) :=
  fun p => if p = "15551234567" then Except.ok (some contactVip) else Except.ok none

/-! ## Lemmas about the association-list store operations -/

theorem aget_cons {κ α : Type} [DecidableEq κ] (a : κ × α) (m : List (κ × α)) (j : κ) :
    aget (a :: m) j = if a.1 = j then some a.2 else aget m j := by
  by_cases h : a.1 = j <;> simp [aget, List.find?_cons, h]

theorem aget_aset_self {κ α : Type} [DecidableEq κ] (m : List (κ × α)) (k : κ) (v : α) :
    aget (aset m k v) k = some v := by
  rw [aset, aget_cons, if_pos rfl]

theorem aget_filter_ne {κ α : Type} [DecidableEq κ] (m : List (κ × α)) (k j : κ) (h : j ≠ k) :
    aget (m.filter (fun p => decide (p.1 ≠ k))) j = aget m j := by
  induction m with
  | nil => rfl
  | cons a m ih =>
    by_cases hak : a.1 = k
    · rw [List.filter_cons_of_neg (by simp [hak]), ih, aget_cons,
        if_neg (fun e : a.1 = j => h (e ▸ hak))]
    · rw [List.filter_cons_of_pos (by simp [hak]), aget_cons, aget_cons, ih]

theorem aget_aset_ne {κ α : Type} [DecidableEq κ] (m : List (κ × α)) (k j : κ) (v : α)
    (h : j ≠ k) : aget (aset m k v) j = aget m j := by
  rw [aset, aget_cons, if_neg (fun e => h e.symm), aget_filter_ne _ _ _ h]

theorem aget_adel_self {κ α : Type} [DecidableEq κ] (m : List (κ × α)) (k : κ) :
    aget (adel m k) k = none := by
  induction m with
  | nil => rfl
  | cons a m ih =>
    by_cases hak : a.1 = k
    · rw [adel, List.filter_cons_of_neg (by simp [hak])]; exact ih
    · rw [adel, List.filter_cons_of_pos (by simp [hak]), aget_cons, if_neg hak]; exact ih

theorem aget_adel_ne {κ α : Type} [DecidableEq κ] (m : List (κ × α)) (k j : κ)
    (h : j ≠ k) : aget (adel m k) j = aget m j :=
  aget_filter_ne m k j h

theorem adel_idem {κ α : Type} [DecidableEq κ] (m : List (κ × α)) (k : κ) :
    adel (adel m k) k = adel m k := by
  induction m with
  | nil => rfl
  | cons a m ih =>
    by_cases hak : a.1 = k
    · rw [adel, adel, List.filter_cons_of_neg (by simp [hak])]; exact ih
    · rw [adel, adel, List.filter_cons_of_pos (by simp [hak]),
        List.filter_cons_of_pos (by simp [hak])]
      exact congrArg (a :: ·) ih

theorem mem_aset {κ α : Type} [DecidableEq κ] {m : List (κ × α)} {k : κ} {v : α}
    {p : κ × α} (h : p ∈ aset m k v) : p = (k, v) ∨ (p ∈ m ∧ p.1 ≠ k) := by
  rcases List.mem_cons.1 h with h1 | h2
  · exact Or.inl h1
  · rcases List.mem_filter.1 h2 with ⟨hm, hp⟩
    exact Or.inr ⟨hm, of_decide_eq_true hp⟩

theorem mem_adel {κ α : Type} [DecidableEq κ] {m : List (κ × α)} {k : κ}
    {p : κ × α} (h : p ∈ adel m k) : p ∈ m ∧ p.1 ≠ k := by
  rcases List.mem_filter.1 h with ⟨hm, hp⟩
  exact ⟨hm, of_decide_eq_true hp⟩

theorem mem_of_aget_some {κ α : Type} [DecidableEq κ] {m : List (κ × α)} {k : κ} {v : α}
    (h : aget m k = some v) : (k, v) ∈ m := by
  unfold aget at h
  cases hf : m.find? (fun p => decide (p.1 = k)) with
  | none => rw [hf] at h; cases h
  | some pr =>
    rw [hf] at h
    have hp0 := List.find?_some hf
    have hp : pr.1 = k := of_decide_eq_true hp0
    have hm := List.mem_of_find?_eq_some hf
    obtain ⟨p1, p2⟩ := pr
    simp only [Option.map_some'] at h
    cases h
    cases hp
    exact hm

/-! ## Session registry theorems -/

/-- C4: a session created via Start (`saveSession s t`) is found again by
session id with `thread_ts = t`, and the reverse index resolves that thread
back to a session whose `session_id` is `s`.  The hypothesis excludes the
degenerate empty session id, which the reverse lookup's falsy-value guard
treats as missing. -/
theorem start_roundtrip (st : Store) (s t nm now : String) (hs : s ≠ "") :
    (getSession (saveSession st s t nm now) s).map Session.thread_ts = some t ∧
    (getSessionByThread (saveSession st s t nm now) t).map Session.session_id = some s := by
  have h1 : getSession (saveSession st s t nm now) s =
      some { session_id := s, thread_ts := t,
             profile_name := if nm = "" then "Customer" else nm, created_at := now } := by
    show aget (aset st.sessions s _) s = _
    exact aget_aset_self _ _ _
  have h2 : aget (saveSession st s t nm now).threads t = some s := by
    show aget (aset st.threads t s) t = _
    exact aget_aset_self _ _ _
  refine ⟨by rw [h1]; rfl, ?_⟩
  unfold getSessionByThread
  rw [h2]
  dsimp only
  rw [if_neg hs, h1]
  rfl

/-- C4 witness at a concrete store and session. -/
theorem start_roundtrip_witness :
    ("s1" : String) ≠ "" ∧
    ((getSession (saveSession emptyStore "s1" "t1" "Alice" "d1") "s1").map Session.thread_ts
        = some "t1" ∧
     (getSessionByThread (saveSession emptyStore "s1" "t1" "Alice" "d1") "t1").map
        Session.session_id = some "s1") :=
  ⟨by decide, start_roundtrip emptyStore "s1" "t1" "Alice" "d1" (by decide)⟩

theorem cancel_of_pending_none (ts : TimerSys) (s : String)
    (h : aget ts.pending s = none) : cancelAutoResponses ts s = ts := by
  simp [cancelAutoResponses, h]

theorem aget_pending_cancel (ts : TimerSys) (s : String) :
    aget (cancelAutoResponses ts s).pending s = none := by
  cases h : aget ts.pending s with
  | none => simp [cancelAutoResponses, h]
  | some ids => simp [cancelAutoResponses, h, aget_adel_self]

theorem cancel_cancel (ts : TimerSys) (s : String) :
    cancelAutoResponses (cancelAutoResponses ts s) s = cancelAutoResponses ts s :=
  cancel_of_pending_none _ _ (aget_pending_cancel ts s)

/-- C5: `deleteSession(s, t)` removes both index entries — both lookups then
report not-found — and is idempotent: a second call raises no error (it is a
total function) and leaves the whole world (store, timers, log) unchanged. -/
theorem deleteSession_spec (w : World) (s t : String) :
    getSession (deleteSession w s t).store s = none ∧
    getSessionByThread (deleteSession w s t).store t = none ∧
    deleteSession (deleteSession w s t) s t = deleteSession w s t := by
  refine ⟨aget_adel_self _ _, ?_, ?_⟩
  · unfold getSessionByThread
    rw [show aget (deleteSession w s t).store.threads t = none from aget_adel_self _ _]
  · unfold deleteSession
    dsimp only
    rw [cancel_cancel, adel_idem, adel_idem]

/-! ## C1: forward/reverse index agreement under `saveSession` -/

/-- C1 counterexample: `stB` arises from two Start calls for the same session
id (`saveSession "s1" "t1"` then `saveSession "s1" "t2"`); the stale reverse
entry `thread:t1 -> s1` remains even though the session's `thread_ts` is now
`t2`, so the forward and reverse indices no longer agree — refuting the claim
that the overwrite leaves no orphaned half-entry. -/
theorem saveSession_overwrite_cex :
    indicesAgree stA ∧
    aget stB.threads "t1" = some "s1" ∧
    (getSession stB "s1").map Session.thread_ts = some "t2" ∧
    ¬ indicesAgree stB :=
  ⟨by decide, by decide, by decide, by decide⟩

/-- C1 amended: `saveSession` writes both halves of the new pair, so creating
a session under a fresh id and thread preserves index agreement; but when it
overwrites an existing session id whose thread differs, the old reverse entry
survives untouched (still pointing at the session id) and the agreement
invariant is broken. -/
theorem saveSession_index_agreement (st : Store) (sid tts nm now : String)
    (hagree : indicesAgree st) :
    (aget st.sessions sid = none → aget st.threads tts = none →
      indicesAgree (saveSession st sid tts nm now)) ∧
    (∀ sess, aget st.sessions sid = some sess → sess.thread_ts ≠ tts →
      aget (saveSession st sid tts nm now).threads sess.thread_ts = some sid ∧
      ¬ indicesAgree (saveSession st sid tts nm now)) := by
  obtain ⟨hfwd, hrev⟩ := hagree
  constructor
  · intro hs ht
    constructor
    · intro p hp
      rcases mem_aset hp with rfl | ⟨hm, _⟩
      · exact aget_aset_self _ _ _
      · have hold := hfwd p hm
        have hneq : p.2.thread_ts ≠ tts := by
          intro e
          rw [e, ht] at hold
          cases hold
        show aget (aset st.threads tts sid) p.2.thread_ts = some p.1
        rw [aget_aset_ne _ _ _ _ hneq]
        exact hold
    · intro q hq
      rcases mem_aset hq with rfl | ⟨hm, _⟩
      · show (aget (aset st.sessions sid _) sid).map _ = some tts
        rw [aget_aset_self]
        rfl
      · have hold := hrev q hm
        have hq2 : q.2 ≠ sid := by
          intro e
          rw [e, hs] at hold
          cases hold
        show (aget (aset st.sessions sid _) q.2).map _ = some q.1
        rw [aget_aset_ne _ _ _ _ hq2]
        exact hold
  · intro sess hsess hne
    have hmem := mem_of_aget_some hsess
    have hold := hfwd (sid, sess) hmem
    have hstale : aget (saveSession st sid tts nm now).threads sess.thread_ts = some sid := by
      show aget (aset st.threads tts sid) sess.thread_ts = some sid
      rw [aget_aset_ne _ _ _ _ hne]
      exact hold
    refine ⟨hstale, ?_⟩
    rintro ⟨_, hr2⟩
    have hmem2 : (sess.thread_ts, sid) ∈ (saveSession st sid tts nm now).threads :=
      mem_of_aget_some hstale
    have hbad := hr2 (sess.thread_ts, sid) hmem2
    rw [show aget (saveSession st sid tts nm now).sessions sid = some _ from
      aget_aset_self _ _ _] at hbad
    simp only [Option.map_some'] at hbad
    exact hne (Option.some.inj hbad).symm

/-- C1 amended witness: the agreeing one-session store `stA`, overwritten
under the same session id with a new thread. -/
theorem saveSession_index_agreement_witness :
    indicesAgree stA ∧
    ((aget stA.sessions "s1" = none → aget stA.threads "t2" = none →
        indicesAgree (saveSession stA "s1" "t2" "Alice" "d2")) ∧
     (∀ sess, aget stA.sessions "s1" = some sess → sess.thread_ts ≠ "t2" →
        aget (saveSession stA "s1" "t2" "Alice" "d2").threads sess.thread_ts = some "s1" ∧
        ¬ indicesAgree (saveSession stA "s1" "t2" "Alice" "d2"))) :=
  ⟨by decide, saveSession_index_agreement stA "s1" "t2" "Alice" "d2" (by decide)⟩

/-! ## C2: the save-contact modal and contact roles -/

/-- C2 counterexample: the contact `15551234567` has the non-empty roles set
`["vip"]`; after the save-contact modal submission writes a new name, the
stored record has no roles field at all — the roles were not left unchanged. -/
theorem saveContact_drops_roles_cex :
    (aget stContact.contacts "15551234567").map Contact.roles = some (some ["vip"]) ∧
    (aget (saveContactModalSubmit stContact "15551234567" "New" "d1").contacts
        "15551234567").map Contact.roles = some none :=
  ⟨by decide, by decide⟩

/-- C2 amended: the modal submission replaces the whole stored record with
`{name, phone, saved_at}`; any previously stored roles are discarded (the
written record has no roles field, which later reads default to the empty
set). -/
theorem saveContact_overwrites_record (st : Store) (phone nm now : String) :
    aget (saveContactModalSubmit st phone nm now).contacts phone =
      some ⟨nm, phone, none, now⟩ :=
  aget_aset_self _ _ _

/-! ## C3: rescheduling leaks the previous timer pair -/

/-- C3 counterexample: scheduling twice for session `abc` overwrites the
`pendingTimers` entry (now the pair `(2, 3)`), yet the previously scheduled
timers `0` and `1` can still fire — even after `cancelAutoResponses`, which
only clears the latest pair. -/
theorem schedule_overwrite_cex :
    aget (scheduleAutoResponses emptyTimers "abc").pending "abc" = some (0, 1) ∧
    canFire ts2abc 0 ∧ canFire ts2abc 1 ∧
    aget ts2abc.pending "abc" = some (2, 3) ∧
    canFire (cancelAutoResponses ts2abc "abc") 0 ∧
    canFire (cancelAutoResponses ts2abc "abc") 1 :=
  ⟨by decide, by decide, by decide, by decide, by decide, by decide⟩

/-- C3 amended: calling `scheduleAutoResponses` for a session that already has
a pending pair overwrites only the `pendingTimers` entry; the two previously
created timers stay active (they can still fire), and a subsequent cancel
clears only the latest pair, leaving the leaked pair able to fire. -/
theorem schedule_overwrite_leaks (ts : TimerSys) (s : String) :
    canFire (scheduleAutoResponses (scheduleAutoResponses ts s) s) ts.nextId ∧
    canFire (scheduleAutoResponses (scheduleAutoResponses ts s) s) (ts.nextId + 1) ∧
    aget (scheduleAutoResponses (scheduleAutoResponses ts s) s).pending s =
      some (ts.nextId + 2, ts.nextId + 3) ∧
    canFire (cancelAutoResponses (scheduleAutoResponses (scheduleAutoResponses ts s) s) s)
      ts.nextId ∧
    canFire (cancelAutoResponses (scheduleAutoResponses (scheduleAutoResponses ts s) s) s)
      (ts.nextId + 1) := by
  have hmem0 : (⟨ts.nextId, s, busyMessage3Min⟩ : TimerRec) ∈
      (scheduleAutoResponses (scheduleAutoResponses ts s) s).active :=
    List.mem_cons_of_mem _ (List.mem_cons_of_mem _ (List.mem_cons_self _ _))
  have hmem1 : (⟨ts.nextId + 1, s, busyMessage10Min⟩ : TimerRec) ∈
      (scheduleAutoResponses (scheduleAutoResponses ts s) s).active :=
    List.mem_cons_of_mem _ (List.mem_cons_of_mem _
      (List.mem_cons_of_mem _ (List.mem_cons_self _ _)))
  have hpend : aget (scheduleAutoResponses (scheduleAutoResponses ts s) s).pending s =
      some (ts.nextId + 2, ts.nextId + 3) := aget_aset_self _ _ _
  have hc : (cancelAutoResponses (scheduleAutoResponses (scheduleAutoResponses ts s) s) s).active =
      (scheduleAutoResponses (scheduleAutoResponses ts s) s).active.filter
        (fun t => decide (t.tid ≠ ts.nextId + 2) && decide (t.tid ≠ ts.nextId + 3)) := by
    simp [cancelAutoResponses, hpend]
  refine ⟨⟨_, hmem0, rfl⟩, ⟨_, hmem1, rfl⟩, hpend, ?_, ?_⟩
  · refine ⟨⟨ts.nextId, s, busyMessage3Min⟩, ?_, rfl⟩
    rw [hc]
    refine List.mem_filter.2 ⟨hmem0, ?_⟩
    simp only [Bool.and_eq_true, decide_eq_true_eq]
    omega
  · refine ⟨⟨ts.nextId + 1, s, busyMessage10Min⟩, ?_, rfl⟩
    rw [hc]
    refine List.mem_filter.2 ⟨hmem1, ?_⟩
    simp only [Bool.and_eq_true, decide_eq_true_eq]
    omega

/-! ## C7: inbound message for an unknown session -/

/-- C7: when the session id has no stored session, `/inbound` answers
HTTP 200 with a warning status, posts nothing to Slack, leaves the store
unchanged and (being a total function) propagates no exception. -/
theorem inbound_unknown_session (st : Store) (ch sid : String) (b : InboundBody)
    (h : getSession st sid = none) :
    inboundHandler st ch sid b = (⟨200, "warning", some sessionNotFound⟩, [], st) := by
  simp [inboundHandler, h]

/-- C7 witness: inbound text "Hello" for unknown session id `zzz`. -/
theorem inbound_unknown_session_witness :
    getSession emptyStore "zzz" = none ∧
    inboundHandler emptyStore "C123" "zzz" (InboundBody.text "Hello") =
      (⟨200, "warning", some sessionNotFound⟩, [], emptyStore) :=
  ⟨by decide,
   inbound_unknown_session emptyStore "C123" "zzz" (InboundBody.text "Hello") (by decide)⟩

/-! ## C9: assignment add then remove -/

/-- C9: starting from an empty assignment entry, adding responders `A`, `B`
and then removing `A` leaves exactly `[B]` — set semantics, no duplicates. -/
theorem assign_add_then_remove (st : Store) (school intent A B : String)
    (hempty : listResponders st school intent = []) (hne : A ≠ B) :
    listResponders
      (assignRemoveUsers (assignAddUsers st school intent [A, B]) school intent [A])
      school intent = [B] := by
  have hBA : B ≠ A := fun e => hne e.symm
  have hv1 : listResponders (assignAddUsers st school intent [A]) school intent = [A] := by
    show (aget (aset st.assigns (school, intent)
        (sAdd (listResponders st school intent) A)) (school, intent)).getD [] = [A]
    rw [aget_aset_self, Option.getD_some, hempty]
    simp [sAdd]
  have hv2 : aget (assignAddUsers st school intent [A, B]).assigns (school, intent)
      = some [A, B] := by
    show aget (aset (assignAddUsers st school intent [A]).assigns (school, intent)
        (sAdd (listResponders (assignAddUsers st school intent [A]) school intent) B))
        (school, intent) = some [A, B]
    rw [aget_aset_self, hv1]
    simp [sAdd, hBA]
  have hrem : listResponders
      (assignRemoveUsers (assignAddUsers st school intent [A, B]) school intent [A])
      school intent = sRem [A, B] A := by
    simp only [assignRemoveUsers, List.foldl, hv2, listResponders]
    rw [aget_aset_self, Option.getD_some]
  rw [hrem]
  simp [sRem, hBA]

/-- C9 witness on the empty store with responders `U1`, `U2`. -/
theorem assign_add_then_remove_witness :
    listResponders emptyStore "academy" "registration" = [] ∧ ("U1" : String) ≠ "U2" ∧
    listResponders
      (assignRemoveUsers (assignAddUsers emptyStore "academy" "registration" ["U1", "U2"])
        "academy" "registration" ["U1"]) "academy" "registration" = ["U2"] :=
  ⟨by decide, by decide,
   assign_add_then_remove emptyStore "academy" "registration" "U1" "U2" (by decide) (by decide)⟩

/-! ## C10: `/contact/check` totality -/

/-- C10: the handler always answers status 200; it answers `is_saved = true`
(with the stored name) exactly when a non-empty phone was supplied and the
store lookup succeeds with a record; a missing/empty phone, an absent record,
or any internal error yields `is_saved = false`. -/
theorem contactCheck_spec (fetch : String → Except String (Option Contact))
    (phoneQ : Option String) :
    (contactCheck fetch phoneQ).1 = 200 ∧
    ((contactCheck fetch phoneQ).2.is_saved = true ↔
      ∃ p c, phoneQ = some p ∧ p ≠ "" ∧ fetch p = Except.ok (some c)) ∧
    (∀ p c, phoneQ = some p → p ≠ "" → fetch p = Except.ok (some c) →
      (contactCheck fetch phoneQ).2 = ⟨true, some c.name⟩) := by
  cases phoneQ with
  | none => simp [contactCheck]
  | some p =>
    by_cases hp : p = ""
    · subst hp
      simp [contactCheck]
      rintro q c rfl h
      exact absurd rfl h
    · cases hf : fetch p with
      | error e =>
        simp [contactCheck, hp, hf]
        rintro q c rfl h hq
        rw [hf] at hq
        simp at hq
      | ok o =>
        cases o with
        | none =>
          simp [contactCheck, hp, hf]
          rintro q c rfl h hq
          rw [hf] at hq
          simp at hq
        | some c =>
          simp [contactCheck, hp, hf]
          rintro q c1 rfl h hfq
          rw [hf] at hfq
          simp at hfq
          rw [hfq]

/-- C10 witness at a concrete fetch function and phone. -/
theorem contactCheck_spec_witness :
    (contactCheck demoFetch (some "15551234567")).1 = 200 ∧
    ((contactCheck demoFetch (some "15551234567")).2.is_saved = true ↔
      ∃ p c, (some "15551234567" : Option String) = some p ∧ p ≠ "" ∧
        demoFetch p = Except.ok (some c)) ∧
    (∀ p c, (some "15551234567" : Option String) = some p → p ≠ "" →
      demoFetch p = Except.ok (some c) →
      (contactCheck demoFetch (some "15551234567")).2 = ⟨true, some c.name⟩) :=
  contactCheck_spec demoFetch (some "15551234567")

/-! ## C8: the remove-role cascade -/

theorem rolesOrEmpty_withRoles (c : Contact) :
    rolesOrEmpty (withRoles c) = rolesOrEmpty c := by
  simp [withRoles, rolesOrEmpty]

theorem stripRole_not_mem (r : String) (c : Contact) :
    r ∉ rolesOrEmpty (stripRole r c) := by
  intro h
  simp [stripRole, rolesOrEmpty, List.mem_filter] at h

theorem mem_getAllContacts (st : Store) (c : Contact) :
    c ∈ getAllContacts st ↔ ∃ p, p ∈ st.contacts ∧ withRoles p.2 = c := by
  unfold getAllContacts
  rw [List.Perm.mem_iff (List.perm_insertionSort nameLe _)]
  exact List.mem_map

theorem foldl_removeRoleStep_roles (r : String) (L : List Contact) :
    ∀ acc : Store, (L.foldl (removeRoleStep r) acc).roles = acc.roles := by
  induction L with
  | nil => intro acc; rfl
  | cons c L ih =>
    intro acc
    rw [List.foldl_cons, ih]
    unfold removeRoleStep
    by_cases h : r ∈ rolesOrEmpty c <;> simp [h]

theorem mem_foldl_removeRoleStep (r : String) (L : List Contact) :
    ∀ (acc : Store) (p : String × Contact),
      p ∈ (L.foldl (removeRoleStep r) acc).contacts →
      (p ∈ acc.contacts ∧ ∀ c ∈ L, r ∈ rolesOrEmpty c → c.phone ≠ p.1) ∨
      (∃ c, p.2 = stripRole r c) := by
  induction L with
  | nil =>
    intro acc p hp
    exact Or.inl ⟨hp, fun c hc => absurd hc (List.not_mem_nil c)⟩
  | cons c L ih =>
    intro acc p hp
    rw [List.foldl_cons] at hp
    rcases ih (removeRoleStep r acc c) p hp with ⟨hmem, hall⟩ | hstrip
    · by_cases hr : r ∈ rolesOrEmpty c
      · have hmem2 : p ∈ aset acc.contacts c.phone (stripRole r c) := by
          simpa [removeRoleStep, hr] using hmem
        rcases mem_aset hmem2 with rfl | ⟨hm, hne⟩
        · exact Or.inr ⟨c, rfl⟩
        · refine Or.inl ⟨hm, ?_⟩
          intro d hd hrd
          rcases List.mem_cons.1 hd with rfl | hdL
          · exact fun e => hne e.symm
          · exact hall d hdL hrd
      · have hmem2 : p ∈ acc.contacts := by
          simpa [removeRoleStep, hr] using hmem
        refine Or.inl ⟨hmem2, ?_⟩
        intro d hd hrd
        rcases List.mem_cons.1 hd with rfl | hdL
        · exact absurd hrd hr
        · exact hall d hdL hrd
    · exact Or.inr hstrip

/-- C8: after the `remove_role` action, the role is gone from the global role
set and no contact listed by `getAllContacts` retains it, for every prior
directory state whose records sit under their own phone keys. -/
theorem removeRole_strips (st : Store) (r : String) (hwf : ContactsWF st) :
    r ∉ (removeRoleAction st r).roles ∧
    ∀ c ∈ getAllContacts (removeRoleAction st r), r ∉ rolesOrEmpty c := by
  constructor
  · show r ∉ ((getAllContacts { st with roles := sRem st.roles r }).foldl
      (removeRoleStep r) { st with roles := sRem st.roles r }).roles
    rw [foldl_removeRoleStep_roles]
    intro h
    rcases List.mem_filter.1 h with ⟨_, hp⟩
    exact of_decide_eq_true hp rfl
  · intro c hc
    rw [mem_getAllContacts] at hc
    obtain ⟨p, hp, hpc⟩ := hc
    have hp2 : p ∈ ((getAllContacts { st with roles := sRem st.roles r }).foldl
        (removeRoleStep r) { st with roles := sRem st.roles r }).contacts := hp
    rcases mem_foldl_removeRoleStep r _ _ p hp2 with ⟨hmem, hall⟩ | ⟨c0, hstrip⟩
    · intro hr
      have hr2 : r ∈ rolesOrEmpty p.2 := by
        rw [← hpc, rolesOrEmpty_withRoles] at hr
        exact hr
      have hcL : withRoles p.2 ∈ getAllContacts { st with roles := sRem st.roles r } :=
        (mem_getAllContacts _ _).2 ⟨p, hmem, rfl⟩
      have hner := hall (withRoles p.2) hcL (by rwa [rolesOrEmpty_withRoles])
      exact hner (hwf p hmem)
    · intro hr
      rw [← hpc, rolesOrEmpty_withRoles, hstrip] at hr
      exact stripRole_not_mem r c0 hr

/-- C8 witness on a three-contact directory. -/
theorem removeRole_strips_witness :
    ContactsWF contactsDemo ∧
    ("vip" ∉ (removeRoleAction contactsDemo "vip").roles ∧
     ∀ c ∈ getAllContacts (removeRoleAction contactsDemo "vip"), "vip" ∉ rolesOrEmpty c) :=
  ⟨by decide, removeRole_strips contactsDemo "vip" (by decide)⟩

/-! ## C6: cancel-before-fire means no busy notification -/

theorem sendBusy_timers (w : World) (sid msg : String) :
    (sendBusyMessage w sid msg).timers = w.timers := by
  unfold sendBusyMessage
  cases getSession w.store sid <;> rfl

theorem sendBusy_store (w : World) (sid msg : String) :
    (sendBusyMessage w sid msg).store = w.store := by
  unfold sendBusyMessage
  cases getSession w.store sid <;> rfl

theorem fireTimer_store (w : World) (tid : Nat) :
    (fireTimer w tid).store = w.store := by
  cases hf : w.timers.active.find? (fun t => decide (t.tid = tid)) with
  | none => simp [fireTimer, hf]
  | some t => simp [fireTimer, hf, sendBusy_store]

theorem fireTimer_active_sub (w : World) (tid : Nat) :
    ∀ t ∈ (fireTimer w tid).timers.active, t ∈ w.timers.active := by
  intro t ht
  cases hf : w.timers.active.find? (fun u => decide (u.tid = tid)) with
  | none =>
    rw [show fireTimer w tid = w from by simp [fireTimer, hf]] at ht
    exact ht
  | some u =>
    have hact : (fireTimer w tid).timers.active =
        w.timers.active.filter (fun v => decide (v.tid ≠ tid)) := by
      simp [fireTimer, hf, sendBusy_timers]
    rw [hact] at ht
    exact (List.mem_filter.1 ht).1

theorem noActive_cancel (ts : TimerSys) (sid s : String) (h : NoActiveFor ts s) :
    NoActiveFor (cancelAutoResponses ts sid) s := by
  cases hg : aget ts.pending sid with
  | none => rw [cancel_of_pending_none ts sid hg]; exact h
  | some ids =>
    intro t ht
    have hact : (cancelAutoResponses ts sid).active =
        ts.active.filter (fun t => decide (t.tid ≠ ids.1) && decide (t.tid ≠ ids.2)) := by
      simp [cancelAutoResponses, hg]
    rw [hact] at ht
    exact h t (List.mem_filter.1 ht).1

theorem applyStep_sessWF (w : World) (st : Step) (h : SessWF w.store) :
    SessWF (applyStep w st).store := by
  cases st with
  | save sid tts nm now =>
    intro p hp
    have hp2 : p ∈ aset w.store.sessions sid
        { session_id := sid, thread_ts := tts,
          profile_name := if nm = "" then "Customer" else nm, created_at := now } := hp
    rcases mem_aset hp2 with rfl | ⟨hm, _⟩
    · rfl
    · exact h p hm
  | close sid tts =>
    intro p hp
    exact h p (mem_adel hp).1
  | schedule sid => exact h
  | cancel sid => exact h
  | fire tid =>
    show SessWF (fireTimer w tid).store
    rw [fireTimer_store]
    exact h

theorem applyStep_noActive (w : World) (s : String) (st : Step)
    (h : NoActiveFor w.timers s) (hst : st ≠ Step.schedule s) :
    NoActiveFor (applyStep w st).timers s := by
  cases st with
  | save _ _ _ _ => exact h
  | close sid tts => exact noActive_cancel _ sid s h
  | cancel sid => exact noActive_cancel _ sid s h
  | schedule sid =>
    intro t ht
    rcases List.mem_cons.1 ht with rfl | ht2
    · exact fun e => hst (by rw [show sid = s from e])
    rcases List.mem_cons.1 ht2 with rfl | ht3
    · exact fun e => hst (by rw [show sid = s from e])
    · exact h t ht3
  | fire tid =>
    intro t ht
    exact h t (fireTimer_active_sub w tid t ht)

theorem busyFor_applyStep (w : World) (s : String) (st : Step)
    (hwf : SessWF w.store) (hna : NoActiveFor w.timers s) :
    busyFor (applyStep w st) s = busyFor w s := by
  cases st with
  | save _ _ _ _ => rfl
  | close _ _ => rfl
  | schedule _ => rfl
  | cancel sid =>
    show busyFor { w with timers := cancelAutoResponses w.timers sid } s = busyFor w s
    rfl
  | fire tid =>
    show busyFor (fireTimer w tid) s = busyFor w s
    unfold busyFor
    cases hf : w.timers.active.find? (fun t => decide (t.tid = tid)) with
    | none => rw [show fireTimer w tid = w from by simp [fireTimer, hf]]
    | some t =>
      have htmem := List.mem_of_find?_eq_some hf
      have hts : t.sessionId ≠ s := hna t htmem
      cases hg : getSession w.store t.sessionId with
      | none =>
        rw [show (fireTimer w tid).sent = w.sent from by
          simp [fireTimer, hf, sendBusyMessage, hg]]
      | some sess =>
        have hsid : sess.session_id = t.sessionId := hwf _ (mem_of_aget_some hg)
        rw [show (fireTimer w tid).sent =
            w.sent ++ [⟨sess.session_id, sess.thread_ts, t.message⟩] from by
          simp [fireTimer, hf, sendBusyMessage, hg]]
        rw [List.filter_append,
          show List.filter (fun e => decide (e.session_id = s))
            [(⟨sess.session_id, sess.thread_ts, t.message⟩ : BusyEvent)] = [] from by
            simp [hsid, hts],
          List.append_nil]

theorem runSteps_busyFor (s : String) (tr : List Step) :
    ∀ w : World, SessWF w.store → NoActiveFor w.timers s → Step.schedule s ∉ tr →
      busyFor (runSteps w tr) s = busyFor w s := by
  induction tr with
  | nil => intro w _ _ _; rfl
  | cons st tr ih =>
    intro w hwf hna htr
    have hst : st ≠ Step.schedule s := by
      intro e
      exact htr (by rw [← e]; exact List.mem_cons_self _ _)
    have htr2 : Step.schedule s ∉ tr := fun hm => htr (List.mem_cons_of_mem _ hm)
    calc busyFor (runSteps w (st :: tr)) s
        = busyFor (runSteps (applyStep w st) tr) s := rfl
      _ = busyFor (applyStep w st) s :=
          ih (applyStep w st) (applyStep_sessWF w st hwf) (applyStep_noActive w s st hna hst) htr2
      _ = busyFor w s := busyFor_applyStep w s st hwf hna

/-- C6: in a well-formed world with no leaked timer for session `s`,
scheduling the auto-response pair for `s` and cancelling it before either
timer becomes due (here: before any fire step runs) guarantees that the
subsequent execution — any interleaving of saves, closes, cancels, fires and
schedules for other sessions — sends no busy notification for `s`: neither an
outbound message to the customer nor a thread notice is ever produced for it. -/
theorem cancel_before_fire_no_busy (w : World) (s : String)
    (hwf : SessWF w.store) (hclean : NoActiveFor w.timers s)
    (tr : List Step) (htr : Step.schedule s ∉ tr) :
    busyFor (runSteps (applyStep (applyStep w (Step.schedule s)) (Step.cancel s)) tr) s =
      busyFor w s := by
  have hwf1 : SessWF (applyStep (applyStep w (Step.schedule s)) (Step.cancel s)).store := hwf
  have hclean1 :
      NoActiveFor (applyStep (applyStep w (Step.schedule s)) (Step.cancel s)).timers s := by
    intro t ht
    have hg : aget (scheduleAutoResponses w.timers s).pending s =
        some (w.timers.nextId, w.timers.nextId + 1) := aget_aset_self _ _ _
    have hact : (applyStep (applyStep w (Step.schedule s)) (Step.cancel s)).timers.active =
        (scheduleAutoResponses w.timers s).active.filter
          (fun t => decide (t.tid ≠ w.timers.nextId) &&
            decide (t.tid ≠ w.timers.nextId + 1)) := by
      show (cancelAutoResponses (scheduleAutoResponses w.timers s) s).active = _
      simp [cancelAutoResponses, hg]
    rw [hact] at ht
    rcases List.mem_filter.1 ht with ⟨hmem, hpred⟩
    simp only [Bool.and_eq_true, decide_eq_true_eq] at hpred
    rcases List.mem_cons.1 hmem with rfl | hmem2
    · exact absurd rfl hpred.1
    rcases List.mem_cons.1 hmem2 with rfl | hmem3
    · exact absurd rfl hpred.2
    · exact hclean t hmem3
  rw [runSteps_busyFor s tr _ hwf1 hclean1 htr]
  rfl

/-- C6 witness: schedule then cancel for `abc` on the empty world, followed by
a demo trace of fires, an unrelated schedule and an unrelated cancel. -/
theorem cancel_before_fire_no_busy_witness :
    SessWF world0.store ∧ NoActiveFor world0.timers "abc" ∧
    Step.schedule "abc" ∉ trDemo ∧
    busyFor (runSteps (applyStep (applyStep world0 (Step.schedule "abc")) (Step.cancel "abc"))
      trDemo) "abc" = busyFor world0 "abc" :=
  ⟨by decide, by decide, by decide,
   cancel_before_fire_no_busy world0 "abc" (by decide) (by decide) trDemo (by decide)⟩

end W2S
